import Mathlib

/-!
Verification of the Project-Chimera query client and of the
session/streaming/personalization core described by its specification.

The TypeScript client code (`frontend-react/src/services/api.ts` — both the
`APIClient` of `src/unnamed/part_000` and the `EnhancedAPIClient` embedded in
`AUTH_SYSTEM_SUMMARY.md` —, `frontend-react/src/services/supabase.ts`,
`frontend-react/src/components/Login.tsx` in `src/unnamed/part_004`, and
`frontend-react/src/types/api.ts`) is embedded shallowly: strings are
`List Char`, callback-driven streaming is modelled as the ordered list of
callback invocations a call performs, and fallible backend calls are an
`Except` value passed to the function under scrutiny.

The Python backend (`main_agents.py`, `database.py`) is not part of the
source tree given here; the components the specification attributes to it
(ConversationStore, PreferenceAggregator, QueryOrchestrator) are modelled
from the specification's own words, and are marked as such.

The file is organised as definitions first, then the supporting lemmas and
the claim theorems.
-/

/-! # Definitions -/

/-! ## JavaScript string primitives used by the client code -/

/-- The whitespace characters relevant to JavaScript `String.prototype.trim`
that can occur in our `List Char` strings. -/
def isJsWhitespace (c : Char) : Bool :=
  c = ' ' || c = '\t' || c = '\n' || c = '\r'

/-- JavaScript `s.trim()`: remove leading and trailing whitespace. -/
def jsTrim (s : List Char) : List Char :=
  ((s.dropWhile isJsWhitespace).reverse.dropWhile isJsWhitespace).reverse

/-- JavaScript `s.split(' ')`: split on every single space character;
`"".split(' ')` is `[""]` and adjacent separators produce empty fields. -/
def splitOnSpace : List Char → List (List Char)
  | [] => [[]]
  | c :: cs =>
    if c = ' ' then [] :: splitOnSpace cs
    else
      match splitOnSpace cs with
      | [] => [[c]]
      | w :: ws => (c :: w) :: ws

/-! ## `APIClient.streamQuery` (frontend-react/src/services/api.ts, part_000) -/

/-- A backend error surfaced by a rejected axios promise. -/
structure ApiError where
  message : List Char
deriving DecidableEq

/-- The `AgentResponse` payload of `POST /query` consumed by `APIClient`
(`frontend-react/src/types/agents.ts`); only the fields the embedded client
functions touch are carried in full, the rest is kept abstract but present. -/
structure AgentResponse where
  answer : List Char
  confidence : Option (List Char) := none
  citations : List (List Char) := []
deriving DecidableEq

/-- One callback invocation performed by `streamQuery`:
`onChunk` (progress), `onComplete` or `onError` (terminal). -/
inductive StreamCallback where
  | onChunk (chunk : List Char)
  | onComplete (response : AgentResponse)
  | onError (e : ApiError)
deriving DecidableEq

/-- Whether a callback is one of the two terminal callbacks. -/
def StreamCallback.isTerminal : StreamCallback → Bool
  | .onChunk _ => false
  | .onComplete _ => true
  | .onError _ => true

/-- The successive arguments of the `onChunk` calls of `streamQuery`'s loop:
starting from accumulator `acc`, each word is appended followed by a single
space and the trimmed accumulator is emitted. -/
def chunkArgs (acc : List Char) : List (List Char) → List (List Char)
  | [] => []
  | w :: ws =>
    let acc2 := acc ++ w ++ [' ']
    jsTrim acc2 :: chunkArgs acc2 ws

/-- `APIClient.streamQuery`: the ordered list of callback invocations one call
performs, as a function of the outcome of the inner `this.query(request)` call.
On rejection the catch block invokes `onError` once; on success the answer is
split on single spaces, re-accumulated word by word with a trailing space and
trimmed into each `onChunk` argument, and finally `onComplete` receives the
response object unchanged. -/
def streamQuery (queryOutcome : Except ApiError AgentResponse) :
    List StreamCallback :=
  match queryOutcome with
  | .error e => [.onError e]
  | .ok response =>
      (chunkArgs [] (splitOnSpace response.answer)).map .onChunk
        ++ [.onComplete response]

/-- A callback trace made of zero or more non-terminal invocations followed by
exactly one terminal invocation and nothing afterwards. -/
def ProgressThenOneTerminal {α : Type} (isTerm : α → Bool)
    (trace : List α) : Prop :=
  ∃ progress terminal, trace = progress ++ [terminal] ∧
    (∀ e ∈ progress, isTerm e = false) ∧ isTerm terminal = true

/-! ## `EnhancedAPIClient` (embedded in AUTH_SYSTEM_SUMMARY.md) -/

/-- The structured `Brief` of `frontend-react/src/types/api.ts`. -/
structure Brief where
  consensus : List Char
  contradiction : List Char
  gap : List Char
deriving DecidableEq

/-- A cited publication; only identity matters to the embedded functions. -/
structure Publication where
  title : List Char
  url : List Char
deriving DecidableEq

/-- `EnhancedQueryResponse` as produced by `EnhancedAPIClient.query`. The
`brief` field is an `Option` because the non-legacy branch returns the raw
backend payload through an unchecked `as EnhancedQueryResponse` cast, which
can leave the field absent. -/
structure EnhancedQueryResponse where
  brief : Option Brief
  evidence : List Publication
  highlighted_concepts : List (List Char)
  follow_up_questions : List (List Char)
  agent_logs : List (List Char)
deriving DecidableEq

/-- The raw `response.data` of `POST /query` seen by `EnhancedAPIClient.query`:
it may carry the legacy fields (`answer`, `publications`,
`intermediate_steps`, the steps modelled by their serialized strings) and/or
the structured fields. An absent or empty `answer` is `[]` (both are falsy in
the JavaScript guard), an absent `brief` is `none`. -/
structure BackendData where
  answer : List Char := []
  brief : Option Brief := none
  publications : List Publication := []
  intermediate_steps : List (List Char) := []
  evidence : List Publication := []
  highlighted_concepts : List (List Char) := []
  follow_up_questions : List (List Char) := []
  agent_logs : List (List Char) := []
deriving DecidableEq

/-- Case-insensitive character equality, as produced by lowercasing both
sides (`text.toLowerCase()` against lowercase keywords). -/
def lcEq (a b : Char) : Bool := a.toLower = b.toLower

/-- Case-insensitive "starts with" on character lists. -/
def isPrefixCI : List Char → List Char → Bool
  | [], _ => true
  | _ :: _, [] => false
  | a :: as, b :: bs => lcEq a b && isPrefixCI as bs

/-- Split a string at its first `'.'`: the segment up to and including the
dot, and the rest. `none` when no dot occurs. This realizes the
`[^.]*[.]` part of `extractSection`'s regular expression (the greedy
non-dot run can only stop at the first dot). -/
def firstDotSplit : List Char → Option (List Char × List Char)
  | [] => none
  | c :: cs =>
    if c = '.' then some ([c], cs)
    else (firstDotSplit cs).map (fun p => (c :: p.1, p.2))

/-- The lazy `[^]*?(?=\n\n|$)` tail of `extractSection`'s regular
expression: the shortest prefix ending right before a blank line, or the
whole rest when no blank line occurs. -/
def lazyUntilBreak : List Char → List Char
  | [] => []
  | '\n' :: '\n' :: _ => []
  | c :: cs => c :: lazyUntilBreak cs

/-- A match of `extractSection`'s pattern anchored at the start of `t`:
the keyword (case-insensitively), a run of non-dot characters up to and
including the first dot, then lazily up to a blank line or the end. -/
def matchSectionAt (kw t : List Char) : Option (List Char) :=
  if isPrefixCI kw t then
    match firstDotSplit (t.drop kw.length) with
    | some (seg, rest) => some (t.take kw.length ++ seg ++ lazyUntilBreak rest)
    | none => none
  else none

/-- `EnhancedAPIClient.extractSection`: the leftmost match of
`new RegExp(keyword + "[^.]*[.][^]*?(?=\n\n|$)", "i")` in `text`,
or `none` (`null`) when the pattern does not occur. -/
def extractSection (kw : List Char) : List Char → Option (List Char)
  | [] => matchSectionAt kw []
  | c :: rest =>
    match matchSectionAt kw (c :: rest) with
    | some m => some m
    | none => extractSection kw rest

/-- JavaScript `a || b` where `a` is a string-or-null expression and `b` a
string: `b` when `a` is `null` or the empty string, `a` otherwise. -/
def jsOrOpt (a : Option (List Char)) (b : List Char) : List Char :=
  match a with
  | none => b
  | some s => if s = [] then b else s

/-- The fixed default sentence substituted for a missing contradiction
section. -/
def defaultContradictionText : List Char :=
  "No significant contradictions identified in the literature.".toList

/-- The fixed default sentence substituted for a missing knowledge-gap
section. -/
def defaultGapText : List Char :=
  "Additional research may be needed to fully address this question.".toList

/-- The three fixed follow-up questions of `transformLegacyResponse`. -/
def followUpDefaults : List (List Char) :=
  ["Can you provide more details about the methodology?".toList,
   "What are the implications for future missions?".toList,
   "Are there any ongoing studies on this topic?".toList]

/-- Case-insensitive substring test
(`text.toLowerCase().includes(pat.toLowerCase())`). -/
def containsCI (pat : List Char) : List Char → Bool
  | [] => isPrefixCI pat []
  | c :: rest => isPrefixCI pat (c :: rest) || containsCI pat rest

/-- The known space-biology terms of `extractConcepts`. -/
def knownConcepts : List (List Char) :=
  ["microgravity".toList, "spaceflight".toList, "radiation".toList,
   "photosynthesis".toList, "cardiovascular".toList, "bone density".toList,
   "muscle atrophy".toList, "immune system".toList,
   "circadian rhythm".toList, "oxidative stress".toList,
   "gene expression".toList]

/-- `EnhancedAPIClient.extractConcepts`: the known concepts found in the
text, capped at five. -/
def extractConcepts (text : List Char) : List (List Char) :=
  (knownConcepts.filter (fun concept => containsCI concept text)).take 5

/-- `EnhancedAPIClient.transformLegacyResponse`: structure a legacy
`answer`-bearing payload, extracting sections from the answer and falling
back to the first 300 characters of the answer (consensus) or to fixed
default sentences (contradiction, gap), with three fixed follow-up
questions. -/
def transformLegacyResponse (legacyData : BackendData) :
    EnhancedQueryResponse :=
  let answer := legacyData.answer
  { brief := some
      { consensus := jsOrOpt (extractSection "consensus".toList answer)
          (jsOrOpt (extractSection "findings".toList answer)
            (answer.take 300))
        contradiction := jsOrOpt (extractSection "contradiction".toList answer)
          (jsOrOpt (extractSection "conflicting".toList answer)
            defaultContradictionText)
        gap := jsOrOpt (extractSection "gap".toList answer)
          (jsOrOpt (extractSection "future research".toList answer)
            defaultGapText) }
    evidence := legacyData.publications
    highlighted_concepts := extractConcepts answer
    follow_up_questions := followUpDefaults
    agent_logs := legacyData.intermediate_steps }

/-- `EnhancedAPIClient.query`: legacy payloads (truthy `answer`, falsy
`brief`) are transformed; anything else passes through the unchecked cast
unchanged. -/
def EnhancedAPIClient.query (data : BackendData) : EnhancedQueryResponse :=
  if data.answer ≠ [] ∧ data.brief = none then
    transformLegacyResponse data
  else
    { brief := data.brief
      evidence := data.evidence
      highlighted_concepts := data.highlighted_concepts
      follow_up_questions := data.follow_up_questions
      agent_logs := data.agent_logs }

/-! ## `queryWithStreaming` / `simulateStreaming`
(EnhancedAPIClient, embedded in AUTH_SYSTEM_SUMMARY.md) -/

/-- One callback invocation of `queryWithStreaming`/`simulateStreaming`,
which expose only `onLog` (progress) and `onComplete` (terminal). -/
inductive EnhancedCallback where
  | onLog (log : List Char)
  | onComplete (result : EnhancedQueryResponse)
deriving DecidableEq

/-- Whether an `EnhancedCallback` is the terminal `onComplete`. -/
def EnhancedCallback.isTerminal : EnhancedCallback → Bool
  | .onLog _ => false
  | .onComplete _ => true

/-- One simulated agent log line: `[` + timestamp + `] ` + message. -/
def simLog (ts msg : List Char) : List Char :=
  '[' :: (ts ++ (']' :: ' ' :: msg))

/-- The eight simulated agent-thinking log messages of `simulateStreaming`,
each prefixed with the current local time `ts`. -/
def simulatedLogs (ts : List Char) : List (List Char) :=
  [simLog ts "Deconstructing user goal...".toList,
   simLog ts "Analyzing question for key concepts...".toList,
   simLog ts "Querying knowledge graph for relevant publications...".toList,
   simLog ts "Retrieved publications from database".toList,
   simLog ts "Analyzing consensus patterns...".toList,
   simLog ts "Identifying contradictory findings...".toList,
   simLog ts "Detecting knowledge gaps...".toList,
   simLog ts "Synthesizing final brief...".toList]

/-- `EnhancedAPIClient.simulateStreaming`: streams the eight simulated logs,
then awaits `this.query(request)` and passes its result to `onComplete`.
When that awaited call rejects, the async function rejects after the logs:
no further callback is invoked (there is no `onError` parameter and the
caller does not await this call). -/
def simulateStreaming (ts : List Char)
    (queryOutcome : Except ApiError EnhancedQueryResponse) :
    List EnhancedCallback :=
  (simulatedLogs ts).map .onLog ++
    match queryOutcome with
    | .ok result => [.onComplete result]
    | .error _ => []

/-- The two "streaming transport unavailable" situations of
`queryWithStreaming`: the backend reports no streaming support
(`checkStreamingSupport` false), or the opened `EventSource` errors. -/
inductive DegradedMode where
  | streamingUnsupported
  | eventSourceErrored
deriving DecidableEq

/-- `EnhancedAPIClient.queryWithStreaming`, restricted to the degraded modes:
without backend streaming support it runs `simulateStreaming`; on an
`EventSource` error the `onerror` handler closes the source and falls back to
`this.query(request).then(onComplete)` (the listed callbacks are those issued
from the error on; `then` without a rejection handler invokes nothing when
the query rejects). The `catch` wrapping the whole body issues the same
fallback. -/
def queryWithStreamingDegraded (mode : DegradedMode) (ts : List Char)
    (queryOutcome : Except ApiError EnhancedQueryResponse) :
    List EnhancedCallback :=
  match mode with
  | .streamingUnsupported => simulateStreaming ts queryOutcome
  | .eventSourceErrored =>
    match queryOutcome with
    | .ok result => [.onComplete result]
    | .error _ => []

/-- The arguments of the `onComplete` invocations of a callback trace, in
order. -/
def completionsOf (trace : List EnhancedCallback) :
    List EnhancedQueryResponse :=
  trace.filterMap (fun e =>
    match e with
    | .onComplete r => some r
    | .onLog _ => none)

/-! ## Server-pushed stream events (frontend-react/src/types/api.ts and the
`onmessage` handler of `queryWithStreaming`) -/

/-- The declared `StreamEvent.type` union of
`frontend-react/src/types/api.ts`. -/
def streamEventTypes : List String := ["log", "thought", "tool", "result"]

/-- Whether a type tag inhabits the declared `StreamEvent` union. -/
def isStreamEventType (t : String) : Bool := streamEventTypes.contains t

/-- Following the claim's words, for comparison with the declared union: the
event-type enumeration the specification asserts
(`log`, `result`, `error`, `done`). -/
def claimedStreamEventTypes : List String := ["log", "result", "error", "done"]

/-- A parsed server-pushed event as seen by the `onmessage` handler: a type
tag and a content payload (kept as its raw serialized form). -/
structure SSEMessage where
  type : String
  content : List Char
deriving DecidableEq

/-- A consumption the `onmessage` handler performs for one event. -/
inductive ConsumedAction where
  | onLogMsg (content : List Char)
  | onResult (content : List Char)
deriving DecidableEq

/-- Whether a consumed action is the terminal `onResult`. -/
def ConsumedAction.isResult : ConsumedAction → Bool
  | .onLogMsg _ => false
  | .onResult _ => true

/-- The `onmessage` handler of `queryWithStreaming` over a pushed event
sequence: a `log` event forwards its content to `onLog`, a `result` event
forwards its content to `onComplete` and closes the `EventSource` (so no
later event is consumed), any other type is ignored and the stream
continues. -/
def runStream : List SSEMessage → List ConsumedAction
  | [] => []
  | d :: ds =>
    if d.type = "log" then .onLogMsg d.content :: runStream ds
    else if d.type = "result" then [.onResult d.content]
    else runStream ds

/-! ## `queryHistoryService` (frontend-react/src/services/supabase.ts) -/

/-- A saved query-history entry (`QueryHistoryItem`). -/
structure QueryHistoryItem where
  id : Option String := none
  session_id : String
  query : String
  persona : String
  timestamp : String
  answer : Option String := none
deriving DecidableEq

/-- The state of one session's `localStorage` slot: absent, present but not
parseable as JSON, or a parsed item list. -/
inductive StoredHistory where
  | missing
  | unparseable
  | parsed (items : List QueryHistoryItem)
deriving DecidableEq

/-- `queryHistoryService.getLocalHistory`: the parsed stored list, or `[]`
when the slot is missing or `JSON.parse` throws. -/
def getLocalHistory : StoredHistory → List QueryHistoryItem
  | .missing => []
  | .unparseable => []
  | .parsed items => items

/-- `queryHistoryService.saveQuery`: `unshift` the new item onto the fetched
history, keep the first 20, store the result. -/
def saveQuery (stored : StoredHistory) (item : QueryHistoryItem) :
    StoredHistory :=
  .parsed ((item :: getLocalHistory stored).take 20)

/-- `queryHistoryService.getSessionHistory`: returns the local history. -/
def getSessionHistory (stored : StoredHistory) : List QueryHistoryItem :=
  getLocalHistory stored

/-- A sequence of `saveQuery` calls applied in order. -/
def runSaves (stored : StoredHistory) (items : List QueryHistoryItem) :
    StoredHistory :=
  items.foldl saveQuery stored

/-! ## `Login` component (frontend-react/src/components/Login.tsx,
part_004) -/

/-- The `/auth/login` / `/auth/register` response as `handleSubmit` sees it:
the `response.ok` flag and the JSON body fields it reads. -/
structure AuthHttpResponse where
  ok : Bool
  access_token : String := ""
  detail : String := ""
deriving DecidableEq

/-- An invocation of the `onLoginSuccess` callback with token and email. -/
inductive LoginCallback where
  | loginSuccess (token : String) (email : String)
deriving DecidableEq

/-- `Login.handleSubmit`: on an ok response the token is stored and
`onLoginSuccess(token, email)` is invoked with an empty error state; on a
rejected response the thrown error's message (the body's `detail`, or
`Authentication failed` when absent) lands in the error state and no
callback is invoked. Returns the error state and the callback invocation,
if any. -/
def handleSubmit (email _password : String) (resp : AuthHttpResponse) :
    String × Option LoginCallback :=
  if resp.ok then
    ("", some (.loginSuccess resp.access_token email))
  else
    ((if resp.detail = "" then "Authentication failed" else resp.detail),
      none)

/-- `Login.handleSkip`: continue without login by invoking the success
callback with an empty token and an empty email. -/
def handleSkip : Option LoginCallback :=
  some (.loginSuccess "" "")

/-! ## ConversationStore, PreferenceAggregator, QueryOrchestrator

The backend that implements these (`backend/main_agents.py`,
`backend/database.py`) is not in the source tree; per the specification
they are modelled from its words (sections 4.2, 4.3, 4.4). -/

/-- A chat-message role (spec section 3, `Message.role`). -/
inductive MessageRole where
  | user
  | assistant
deriving DecidableEq

/-- Modelled from the spec: a `Message` of a `ConversationWindow`
(`role`, `text`, `occurredAt`); the backend store itself is missing from
the given sources. -/
structure Message where
  role : MessageRole
  text : String
  occurredAt : Nat
deriving DecidableEq

/-- Modelled from the spec: the per-user `ConversationStore`, an ordered
association of user IDs to their appended message logs (oldest first). -/
def ConversationStore : Type := List (String × List Message)

/-- The stored message log of a user; a never-seen user has the empty log. -/
def windowOf (store : ConversationStore) (userID : String) : List Message :=
  match (List.find? (fun p => p.1 = userID) store) with
  | none => []
  | some p => p.2

/-- Modelled from the spec: `Append(userID, Message)` — lazily initializes
an empty window for an unknown `userID`, then appends the message at the
end (chronological order). -/
def ConversationStore.Append (store : ConversationStore) (userID : String)
    (m : Message) : ConversationStore :=
  match store with
  | [] => [(userID, [m])]
  | (k, msgs) :: rest =>
    if k = userID then (k, msgs ++ [m]) :: rest
    else (k, msgs) :: ConversationStore.Append rest userID m

/-- Modelled from the spec: `RecentWindow(userID, n)` — the last `n`
messages of the user's log in chronological order, all of them when fewer
exist, and the empty sequence for an unknown `userID` (never an error). -/
def RecentWindow (store : ConversationStore) (userID : String) (n : Nat) :
    List Message :=
  let history := windowOf store userID
  history.drop (history.length - n)

/-- Modelled from the spec: a `PreferenceProfile` (spec section 3) —
`totalQueries`, the per-persona and per-topic counters as ordered mappings
whose key order is first-seen (first-recorded) order, the derived
`preferredPersona`, `lastActiveAt`. -/
structure PreferenceProfile where
  totalQueries : Nat
  personaCounts : List (String × Nat)
  topicCounts : List (String × Nat)
  preferredPersona : Option String
  lastActiveAt : Nat
deriving DecidableEq

/-- The profile of a user never recorded: all counters empty. -/
def emptyProfile : PreferenceProfile :=
  { totalQueries := 0
    personaCounts := []
    topicCounts := []
    preferredPersona := none
    lastActiveAt := 0 }

/-- Increment a key's counter in an ordered counter mapping, initializing it
to 1 at the end (preserving first-seen key order) when absent. -/
def bump (k : String) : List (String × Nat) → List (String × Nat)
  | [] => [(k, 1)]
  | (k2, v) :: rest =>
    if k2 = k then (k2, v + 1) :: rest
    else (k2, v) :: bump k rest

/-- The maximum counter value of an ordered counter mapping (0 when empty). -/
def maxCount (l : List (String × Nat)) : Nat :=
  l.foldr (fun p m => max p.2 m) 0

/-- The keys holding the maximum counter value, in first-seen order. -/
def tiedLeaders (l : List (String × Nat)) : List String :=
  (l.filter (fun p => p.2 = maxCount l)).map Prod.fst

/-- Modelled from the spec: the `preferredPersona` recomputation with the
tie-break rule of section 4.3 — keep the previously-set preference when it
is among the tied leaders, otherwise the first of the tied leaders to have
been recorded at all (first-seen order of the counter mapping). -/
def choosePreferred (prev : Option String) (l : List (String × Nat)) :
    Option String :=
  match prev with
  | some p => if p ∈ tiedLeaders l then some p else (tiedLeaders l).head?
  | none => (tiedLeaders l).head?

/-- Modelled from the spec: `PreferenceAggregator.RecordQuery(userID,
persona, topics)` applied to one user's profile — increment `totalQueries`
and the persona's counter, increment each topic's counter, update
`lastActiveAt`, recompute `preferredPersona` (spec section 4.3). -/
def RecordQuery (profile : PreferenceProfile) (persona : String)
    (topics : List String) (now : Nat) : PreferenceProfile :=
  let pc := bump persona profile.personaCounts
  { totalQueries := profile.totalQueries + 1
    personaCounts := pc
    topicCounts := topics.foldl (fun tc t => bump t tc) profile.topicCounts
    preferredPersona := choosePreferred profile.preferredPersona pc
    lastActiveAt := now }

/-- The successive profiles produced by recording a sequence of personas
(no topics), starting from a given profile. -/
def recordTrace (profile : PreferenceProfile) :
    List String → List PreferenceProfile
  | [] => []
  | persona :: rest =>
    let profile2 := RecordQuery profile persona [] 0
    profile2 :: recordTrace profile2 rest

/-- An event of a `QuerySession` (spec section 3): progress, or one of the
two terminal events. -/
inductive SessionEvent where
  | progress (stageLabel : String)
  | result (answer : String) (topics : List String)
  | failure (reason : String)
deriving DecidableEq

/-- Whether a session event is terminal (`Result` or `Failure`). -/
def SessionEvent.isTerminal : SessionEvent → Bool
  | .progress _ => false
  | .result _ _ => true
  | .failure _ => true

/-- The outcome of the external Evidence and Synthesis collaborator. -/
inductive SynthOutcome where
  | ok (answer : String) (topics : List String)
  | failed (reason : String)
deriving DecidableEq

/-- The per-user shared mutable state the orchestrator updates: preference
profiles and conversation windows. -/
structure ServerState where
  profiles : List (String × PreferenceProfile)
  conversations : ConversationStore

/-- The stored profile of a user, the empty default when never recorded
(spec: `NotFound` reads are an empty default, not an error). -/
def getProfile (st : ServerState) (userID : String) : PreferenceProfile :=
  match (List.find? (fun p => p.1 = userID) st.profiles) with
  | none => emptyProfile
  | some p => p.2

/-- Apply an update to one user's profile in the keyed profile map,
initializing from the empty default when absent. -/
def updateProfile (profiles : List (String × PreferenceProfile))
    (userID : String) (f : PreferenceProfile → PreferenceProfile) :
    List (String × PreferenceProfile) :=
  match profiles with
  | [] => [(userID, f emptyProfile)]
  | (k, p) :: rest =>
    if k = userID then (k, f p) :: rest
    else (k, p) :: updateProfile rest userID f

/-- Modelled from the spec: `QueryOrchestrator.Submit` (section 4.4) driven
by the collaborator's outcome — emit the retrieving and synthesizing
progress events; on success update the user's preference profile, append
the assistant answer to the conversation window (when a `userID` is
present) and emit `Result`; on failure emit `Failure` and leave all state
untouched (no partial credit). Returns the state after the session and the
emitted event sequence. -/
def Submit (st : ServerState) (userID : Option String)
    (_question persona : String) (outcome : SynthOutcome) (now : Nat) :
    ServerState × List SessionEvent :=
  match outcome with
  | .failed reason =>
    (st, [.progress "retrieving evidence", .progress "synthesizing",
      .failure reason])
  | .ok answer topics =>
    let st2 :=
      match userID with
      | none => st
      | some uid =>
        { profiles := updateProfile st.profiles uid
            (fun p => RecordQuery p persona topics now)
          conversations := ConversationStore.Append st.conversations uid
            ⟨MessageRole.assistant, answer, now⟩ }
    (st2, [.progress "retrieving evidence", .progress "synthesizing",
      .result answer topics])

/-! # Lemmas and claim theorems -/

theorem splitOnSpace_ne_nil (s : List Char) : splitOnSpace s ≠ [] := by
  cases s with
  | nil => simp [splitOnSpace]
  | cons c cs =>
    simp only [splitOnSpace]
    by_cases h : c = ' '
    · simp [h]
    · simp only [h, if_false]
      cases splitOnSpace cs <;> simp

/-- Joining the fields of `splitOnSpace`, appending a single space after each
field, reconstructs the string followed by one trailing space. -/
theorem join_splitOnSpace_trailing (s : List Char) :
    ((splitOnSpace s).map (fun w => w ++ [' '])).flatten = s ++ [' '] := by
  induction s with
  | nil => simp [splitOnSpace]
  | cons c cs ih =>
    simp only [splitOnSpace]
    by_cases h : c = ' '
    · subst h
      simpa using ih
    · simp only [h, if_false]
      rcases hs : splitOnSpace cs with _ | ⟨w, ws⟩
      · exact absurd hs (splitOnSpace_ne_nil cs)
      · rw [hs] at ih
        simp only [List.map_cons, List.flatten_cons] at ih ⊢
        simp [← List.append_assoc] at ih ⊢
        exact ih

/-- Trimming a string that carries no leading or trailing whitespace, after a
single extra trailing space was appended, gives the string back. -/
theorem jsTrim_append_space (s : List Char)
    (hl : s.dropWhile isJsWhitespace = s)
    (hr : s.reverse.dropWhile isJsWhitespace = s.reverse) :
    jsTrim (s ++ [' ']) = s := by
  cases s with
  | nil => simp [jsTrim, List.dropWhile, isJsWhitespace]
  | cons c cs =>
    have hc : ¬ (isJsWhitespace c = true) := by
      have h0 := List.dropWhile_eq_self_iff.mp hl (by simp)
      simpa using h0
    unfold jsTrim
    rw [List.cons_append, List.dropWhile_cons, if_neg hc]
    have hrev : (c :: (cs ++ [' '])).reverse = ' ' :: (c :: cs).reverse := by
      simp
    rw [hrev, List.dropWhile_cons, if_pos (by decide), hr]
    simp

/-- `chunkArgs` is never empty (the split always yields at least one word). -/
theorem chunkArgs_ne_nil (acc : List Char) (w : List Char)
    (ws : List (List Char)) : chunkArgs acc (w :: ws) ≠ [] := by
  simp [chunkArgs]

/-- The final `onChunk` argument is the trim of the accumulator extended by
every word with its trailing space. -/
theorem chunkArgs_getLast (acc : List Char) (ws : List (List Char))
    (h : ws ≠ []) :
    (chunkArgs acc ws).getLast? =
      some (jsTrim (acc ++ (ws.map (fun w => w ++ [' '])).flatten)) := by
  induction ws generalizing acc with
  | nil => exact absurd rfl h
  | cons w rest ih =>
    cases rest with
    | nil => simp [chunkArgs]
    | cons w2 rest2 =>
      have hcc : ∀ (x : List Char) (l : List (List Char)), l ≠ [] →
          (x :: l).getLast? = l.getLast? := by
        intro x l hl
        cases l with
        | nil => exact absurd rfl hl
        | cons y ys => exact List.getLast?_cons_cons
      rw [chunkArgs]
      rw [hcc _ _ (chunkArgs_ne_nil _ _ _)]
      rw [ih _ (by simp)]
      simp [← List.append_assoc]

/-- The final `onChunk` argument of a successful `streamQuery` is the trim of
the full answer with one trailing space appended. -/
theorem chunkArgs_split_getLast (s : List Char) :
    (chunkArgs [] (splitOnSpace s)).getLast? = some (jsTrim (s ++ [' '])) := by
  rcases hs : splitOnSpace s with _ | ⟨w, ws⟩
  · exact absurd hs (splitOnSpace_ne_nil s)
  · rw [← hs, chunkArgs_getLast _ _ (by rw [hs]; simp),
      join_splitOnSpace_trailing]
    simp

/-- **C10**: for every response whose answer has no leading or trailing
whitespace, `streamQuery`'s word-by-word accumulation is a round-trip: the
argument of the final `onChunk` call equals `response.answer` exactly, and
`onComplete` then receives the unmodified response object as the last
invocation of the trace. -/
theorem c10_streamQuery_final_chunk_roundTrip (r : AgentResponse)
    (hl : r.answer.dropWhile isJsWhitespace = r.answer)
    (hr : r.answer.reverse.dropWhile isJsWhitespace = r.answer.reverse) :
    ∃ chunks : List (List Char), streamQuery (Except.ok r) =
        chunks.map StreamCallback.onChunk ++ [StreamCallback.onComplete r] ∧
      chunks.getLast? = some r.answer := by
  refine ⟨chunkArgs [] (splitOnSpace r.answer), rfl, ?_⟩
  rw [chunkArgs_split_getLast, jsTrim_append_space _ hl hr]

/-- Witness for **C10** at the concrete answer `"hello world"`. -/
theorem c10_streamQuery_final_chunk_roundTrip_witness :
    ∃ chunks : List (List Char),
      streamQuery (Except.ok ⟨"hello world".toList, none, []⟩) =
        chunks.map StreamCallback.onChunk ++
          [StreamCallback.onComplete ⟨"hello world".toList, none, []⟩] ∧
      chunks.getLast? = some (AgentResponse.answer ⟨"hello world".toList, none, []⟩) :=
  c10_streamQuery_final_chunk_roundTrip ⟨"hello world".toList, none, []⟩
    (by decide) (by decide)

/-- **C1** (counterexample): the claim asserts that every call to
`simulateStreaming` invokes exactly one of `onComplete`/`onError`; a call
whose underlying blocking query rejects invokes zero terminal callbacks
(the rejection escapes the un-awaited async function), refuting the claim
at this concrete input. -/
theorem c1_simulateStreaming_failure_counterexample :
    ¬ ((simulateStreaming "10:05:00 AM".toList
        (Except.error ⟨"Network Error".toList⟩)).countP
          (fun e => EnhancedCallback.isTerminal e) = 1) := by
  decide

/-- **C1** (amended): every `streamQuery` trace is zero or more `onChunk`
progress invocations followed by exactly one terminal invocation
(`onComplete` or `onError`) and nothing afterwards; a `simulateStreaming`
trace satisfies the same shape whenever the underlying query resolves,
while a rejected query yields progress logs and no terminal invocation at
all (so a terminal is never followed by progress, but may be absent). -/
theorem c1_stream_traces_progress_then_terminal :
    (∀ queryOutcome,
      ProgressThenOneTerminal StreamCallback.isTerminal
        (streamQuery queryOutcome)) ∧
    (∀ (ts : List Char) (result : EnhancedQueryResponse),
      ProgressThenOneTerminal EnhancedCallback.isTerminal
        (simulateStreaming ts (Except.ok result))) ∧
    (∀ (ts : List Char) (e : ApiError),
      (simulateStreaming ts (Except.error e)).countP
        (fun ev => EnhancedCallback.isTerminal ev) = 0) := by
  refine ⟨?_, ?_, ?_⟩
  · intro queryOutcome
    cases queryOutcome with
    | error e => exact ⟨[], .onError e, rfl, by simp, rfl⟩
    | ok r =>
      refine ⟨(chunkArgs [] (splitOnSpace r.answer)).map .onChunk,
        .onComplete r, rfl, ?_, rfl⟩
      intro e he
      rcases List.mem_map.mp he with ⟨c, _, rfl⟩
      rfl
  · intro ts r
    refine ⟨(simulatedLogs ts).map .onLog, .onComplete r, rfl, ?_, rfl⟩
    intro e he
    rcases List.mem_map.mp he with ⟨c, _, rfl⟩
    rfl
  · intro ts e
    rw [simulateStreaming]
    rw [List.countP_eq_zero]
    intro x hx
    rw [List.append_nil] at hx
    rcases List.mem_map.mp hx with ⟨c, _, rfl⟩
    simp [EnhancedCallback.isTerminal]

/-- **C4**: in both degraded modes (streaming unsupported, event source
errored) the streaming entry point's `onComplete` receives exactly the
value the blocking `query(request)` form returns for the same request —
one completion carrying that value when the query resolves, and no
completion at all when it rejects. -/
theorem c4_degraded_streaming_equals_blocking_query :
    (∀ (mode : DegradedMode) (ts : List Char)
        (result : EnhancedQueryResponse),
      completionsOf
        (queryWithStreamingDegraded mode ts (Except.ok result)) = [result]) ∧
    (∀ (mode : DegradedMode) (ts : List Char) (e : ApiError),
      completionsOf
        (queryWithStreamingDegraded mode ts (Except.error e)) = []) := by
  constructor
  · intro mode ts result
    cases mode with
    | streamingUnsupported => rfl
    | eventSourceErrored => rfl
  · intro mode ts e
    cases mode with
    | streamingUnsupported => rfl
    | eventSourceErrored => rfl

/-- **C5** (counterexample): the claim enumerates the client event types as
`log`, `result`, `error`, `done`; the declared `StreamEvent` union admits
`thought` (outside that enumeration) and contains neither `done` nor
`error`, refuting the enumeration at these concrete type tags. -/
theorem c5_streamEvent_types_counterexample :
    isStreamEventType "thought" = true ∧
    claimedStreamEventTypes.contains "thought" = false ∧
    isStreamEventType "done" = false ∧
    isStreamEventType "error" = false := by
  decide

/-- **C5** (amended): the declared client stream-event union is exactly
`log`/`thought`/`tool`/`result` (no `done`, no `error`), and the
`onmessage` handler of `queryWithStreaming` consumes only `log` and
`result` events: its consumption trace is forwarded log contents possibly
ended by a single `result` forward, after which the source is closed and
nothing more is consumed. -/
theorem c5_stream_event_union_and_consumption :
    (isStreamEventType "log" = true ∧ isStreamEventType "thought" = true ∧
      isStreamEventType "tool" = true ∧ isStreamEventType "result" = true ∧
      isStreamEventType "error" = false ∧
      isStreamEventType "done" = false) ∧
    (∀ events : List SSEMessage,
      (∃ logs : List (List Char),
        runStream events = logs.map ConsumedAction.onLogMsg) ∨
      (∃ (logs : List (List Char)) (content : List Char),
        runStream events =
          logs.map ConsumedAction.onLogMsg ++
            [ConsumedAction.onResult content])) := by
  refine ⟨by decide, ?_⟩
  intro events
  induction events with
  | nil => exact Or.inl ⟨[], rfl⟩
  | cons d ds ih =>
    by_cases hlog : d.type = "log"
    · rcases ih with ⟨logs, hl⟩ | ⟨logs, content, hl⟩
      · exact Or.inl ⟨d.content :: logs, by simp [runStream, hlog, hl]⟩
      · exact Or.inr ⟨d.content :: logs, content,
          by simp [runStream, hlog, hl]⟩
    · by_cases hres : d.type = "result"
      · exact Or.inr ⟨[], d.content, by simp [runStream, hlog, hres]⟩
      · rcases ih with ⟨logs, hl⟩ | ⟨logs, content, hl⟩
        · exact Or.inl ⟨logs, by simp [runStream, hlog, hres, hl]⟩
        · exact Or.inr ⟨logs, content,
            by simp [runStream, hlog, hres, hl]⟩

/-- **C7** (counterexample): the claim asserts that on every credential
failure the client continues with an empty token, i.e. the success
callback is invoked with empty token and email; a rejected login response
invokes no callback at all — the component records the error and stays on
the login screen. -/
theorem c7_login_failure_counterexample :
    (handleSubmit "user@nasa.gov" "secret123"
      ⟨false, "", "Invalid credentials"⟩).2 = none ∧
    ¬ ((handleSubmit "user@nasa.gov" "secret123"
      ⟨false, "", "Invalid credentials"⟩).2 =
        some (LoginCallback.loginSuccess "" "")) := by
  decide

/-- **C7** (amended): an explicit skip invokes the success callback with an
empty token and empty email, so the client proceeds without a user
identity; a successful login invokes it with the returned token; a
credential failure invokes no callback and leaves a non-empty error
message on the login screen (where the skip path stays available). -/
theorem c7_skip_proceeds_anonymous_failure_stays :
    handleSkip = some (LoginCallback.loginSuccess "" "") ∧
    (∀ (email pwd : String) (resp : AuthHttpResponse), resp.ok = true →
      (handleSubmit email pwd resp).2 =
        some (LoginCallback.loginSuccess resp.access_token email)) ∧
    (∀ (email pwd : String) (resp : AuthHttpResponse), resp.ok = false →
      (handleSubmit email pwd resp).2 = none ∧
      (handleSubmit email pwd resp).1 ≠ "") := by
  refine ⟨rfl, ?_, ?_⟩
  · intro email pwd resp h
    simp [handleSubmit, h]
  · intro email pwd resp h
    refine ⟨by simp [handleSubmit, h], ?_⟩
    rw [handleSubmit, if_neg (by simp [h])]
    by_cases hd : resp.detail = ""
    · simp [hd]
    · simp [hd]

/-- Witness for **C7** at a concrete successful and a concrete failing
login response. -/
theorem c7_skip_proceeds_anonymous_failure_stays_witness :
    ((handleSubmit "a@nasa.gov" "pw" ⟨true, "tok123", ""⟩).2 =
      some (LoginCallback.loginSuccess "tok123" "a@nasa.gov")) ∧
    ((handleSubmit "a@nasa.gov" "pw" ⟨false, "", ""⟩).2 = none ∧
      (handleSubmit "a@nasa.gov" "pw" ⟨false, "", ""⟩).1 ≠ "") :=
  ⟨c7_skip_proceeds_anonymous_failure_stays.2.1
      "a@nasa.gov" "pw" ⟨true, "tok123", ""⟩ rfl,
    c7_skip_proceeds_anonymous_failure_stays.2.2
      "a@nasa.gov" "pw" ⟨false, "", ""⟩ rfl⟩

/-- Truncating the second summand to `n` does not change the first `n`
elements of an append. -/
theorem take_append_take {α : Type} (n : Nat) (a b : List α) :
    (a ++ b.take n).take n = (a ++ b).take n := by
  rw [List.take_append_eq_append_take, List.take_append_eq_append_take,
    List.take_take]
  congr 1
  have : min (n - a.length) n = n - a.length := by omega
  rw [this]

/-- The history after a non-empty sequence of saves is the reversed save
sequence prepended to the prior history, truncated to 20 entries. -/
theorem runSaves_getSessionHistory (stored : StoredHistory)
    (i : QueryHistoryItem) (items : List QueryHistoryItem) :
    getSessionHistory (runSaves stored (i :: items)) =
      ((i :: items).reverse ++ getSessionHistory stored).take 20 := by
  induction items generalizing stored i with
  | nil => rfl
  | cons j rest ih =>
    have h1 : runSaves stored (i :: j :: rest) =
        runSaves (saveQuery stored i) (j :: rest) := rfl
    rw [h1, ih]
    have h2 : getSessionHistory (saveQuery stored i) =
        (i :: getSessionHistory stored).take 20 := rfl
    rw [h2, take_append_take]
    have h3 : (j :: rest).reverse ++ i :: getSessionHistory stored =
        ((j :: rest).reverse ++ [i]) ++ getSessionHistory stored := by
      simp
    rw [h3]
    have h4 : (i :: j :: rest).reverse = (j :: rest).reverse ++ [i] := by
      simp
    rw [h4]

/-- **C8**: for every session and every sequence of `saveQuery` calls the
stored history holds the saves most-recent-first truncated to at most 20
items (so the newest item sits at index 0); once 20 items are held each
further save drops the oldest; and a missing or unparseable stored history
reads back as the empty list rather than an error. -/
theorem c8_history_bounded_most_recent_first :
    (∀ items : List QueryHistoryItem,
      getSessionHistory (runSaves StoredHistory.missing items) =
        items.reverse.take 20) ∧
    (∀ (stored : StoredHistory) (item : QueryHistoryItem),
      getSessionHistory (saveQuery stored item) =
        (item :: getSessionHistory stored).take 20) ∧
    (∀ items : List QueryHistoryItem,
      (getSessionHistory (runSaves StoredHistory.missing items)).length
        ≤ 20) ∧
    (∀ (stored : StoredHistory) (item : QueryHistoryItem),
      (getSessionHistory stored).length = 20 →
      getSessionHistory (saveQuery stored item) =
        item :: (getSessionHistory stored).dropLast) ∧
    getSessionHistory StoredHistory.missing = [] ∧
    getSessionHistory StoredHistory.unparseable = [] := by
  have hrun : ∀ items : List QueryHistoryItem,
      getSessionHistory (runSaves StoredHistory.missing items) =
        items.reverse.take 20 := by
    intro items
    cases items with
    | nil => rfl
    | cons i rest =>
      rw [runSaves_getSessionHistory]
      simp [getSessionHistory, getLocalHistory]
  refine ⟨hrun, fun stored item => rfl, ?_, ?_, rfl, rfl⟩
  · intro items
    rw [hrun]
    simp [List.length_take]
  · intro stored item hlen
    have h2 : getSessionHistory (saveQuery stored item) =
        (item :: getSessionHistory stored).take 20 := rfl
    rw [h2, List.take_succ_cons, List.dropLast_eq_take, hlen]

/-- Witness for **C8** at a concrete full 20-item history. -/
theorem c8_history_bounded_most_recent_first_witness :
    ((getSessionHistory (StoredHistory.parsed
        (List.replicate 20 ⟨none, "s1", "q", "p", "t", none⟩))).length
      = 20) ∧
    getSessionHistory (saveQuery (StoredHistory.parsed
        (List.replicate 20 ⟨none, "s1", "q", "p", "t", none⟩))
        ⟨none, "s1", "q2", "p", "t2", none⟩) =
      ⟨none, "s1", "q2", "p", "t2", none⟩ ::
        (getSessionHistory (StoredHistory.parsed
          (List.replicate 20 ⟨none, "s1", "q", "p", "t", none⟩))).dropLast :=
  ⟨by decide,
    c8_history_bounded_most_recent_first.2.2.2.1
      (StoredHistory.parsed
        (List.replicate 20 ⟨none, "s1", "q", "p", "t", none⟩))
      ⟨none, "s1", "q2", "p", "t2", none⟩ (by decide)⟩

/-- Every counter value in a counter mapping is at most `maxCount`. -/
theorem le_maxCount (l : List (String × Nat)) :
    ∀ q d, (q, d) ∈ l → d ≤ maxCount l := by
  induction l with
  | nil => intro q d h; simp at h
  | cons p rest ih =>
    intro q d h
    rcases List.mem_cons.mp h with h1 | h2
    · have : d = p.2 := by rw [← h1]
      rw [this, maxCount]
      exact le_max_left _ _
    · calc d ≤ maxCount rest := ih q d h2
        _ ≤ maxCount (p :: rest) := by rw [maxCount]; exact le_max_right _ _

/-- A non-empty counter mapping attains its `maxCount` at some key. -/
theorem maxCount_attained (l : List (String × Nat)) (h : l ≠ []) :
    ∃ k, (k, maxCount l) ∈ l := by
  induction l with
  | nil => exact absurd rfl h
  | cons p rest ih =>
    by_cases hr : rest = []
    · subst hr
      refine ⟨p.1, ?_⟩
      have : maxCount [p] = p.2 := by simp [maxCount]
      rw [this]
      simp
    · rcases ih hr with ⟨k, hk⟩
      by_cases hle : maxCount rest ≤ p.2
      · refine ⟨p.1, ?_⟩
        have : maxCount (p :: rest) = p.2 := by
          rw [maxCount]
          simpa [maxCount] using Nat.max_eq_left hle
        rw [this]
        simp
      · have : maxCount (p :: rest) = maxCount rest := by
          rw [maxCount]
          simpa [maxCount] using Nat.max_eq_right (Nat.le_of_not_le hle)
        rw [this]
        exact ⟨k, List.mem_cons_of_mem _ hk⟩

/-- Members of `tiedLeaders` hold the maximum count in the mapping. -/
theorem tiedLeaders_mem_maxCount (l : List (String × Nat)) (x : String)
    (h : x ∈ tiedLeaders l) : (x, maxCount l) ∈ l := by
  rcases List.mem_map.mp h with ⟨p, hp, rfl⟩
  rcases List.mem_filter.mp hp with ⟨hmem, heq⟩
  have : p.2 = maxCount l := by simpa using heq
  have hpe : p = (p.1, maxCount l) := by
    rw [← this]
  rw [hpe] at hmem
  exact hmem

/-- A non-empty mapping has at least one tied leader. -/
theorem tiedLeaders_ne_nil (l : List (String × Nat)) (h : l ≠ []) :
    tiedLeaders l ≠ [] := by
  rcases maxCount_attained l h with ⟨k, hk⟩
  have : k ∈ tiedLeaders l := by
    refine List.mem_map.mpr ⟨(k, maxCount l), ?_, rfl⟩
    exact List.mem_filter.mpr ⟨hk, by simp⟩
  exact List.ne_nil_of_mem this

/-- `choosePreferred` of a non-empty mapping picks some tied leader. -/
theorem choosePreferred_mem (prev : Option String)
    (l : List (String × Nat)) (h : l ≠ []) :
    ∃ p, choosePreferred prev l = some p ∧ p ∈ tiedLeaders l := by
  have hne := tiedLeaders_ne_nil l h
  rcases hhead : (tiedLeaders l).head? with _ | ⟨x⟩
  · exact absurd (List.head?_eq_none_iff.mp hhead) hne
  · have hxmem : x ∈ tiedLeaders l := by
      have hcons : tiedLeaders l = x :: (tiedLeaders l).tail :=
        List.eq_cons_of_mem_head? (by simp [hhead])
      rw [hcons]
      simp
    cases prev with
    | none => exact ⟨x, by rw [choosePreferred, hhead], hxmem⟩
    | some q =>
      by_cases hq : q ∈ tiedLeaders l
      · exact ⟨q, by rw [choosePreferred, if_pos hq], hq⟩
      · exact ⟨x, by rw [choosePreferred, if_neg hq, hhead], hxmem⟩

/-- `bump` never produces an empty mapping. -/
theorem bump_ne_nil (k : String) (l : List (String × Nat)) :
    bump k l ≠ [] := by
  cases l with
  | nil => simp [bump]
  | cons p rest =>
    rw [bump]
    rcases p with ⟨k2, v⟩
    by_cases h : k2 = k
    · simp [h]
    · simp [h]

/-- **C2**: after every `RecordQuery`, `preferredPersona` is set and holds a
maximal count in `personaCounts` (the tie-break retaining the previous
preference among tied leaders, else the first-recorded leader, per the
spec-modelled `choosePreferred`); in particular recording the personas
A,B,A,B,A,B from the empty profile leaves `preferredPersona = A` after
every one of the six steps. -/
theorem c2_preferred_persona_is_max_with_stable_ties :
    (∀ (profile : PreferenceProfile) (persona : String)
        (topics : List String) (now : Nat),
      ∃ name count,
        (RecordQuery profile persona topics now).preferredPersona =
          some name ∧
        (name, count) ∈
          (RecordQuery profile persona topics now).personaCounts ∧
        (∀ q d,
          (q, d) ∈ (RecordQuery profile persona topics now).personaCounts →
            d ≤ count)) ∧
    ((recordTrace emptyProfile ["A", "B", "A", "B", "A", "B"]).map
        (fun p => p.preferredPersona) =
      List.replicate 6 (some "A")) := by
  constructor
  · intro profile persona topics now
    rcases choosePreferred_mem profile.preferredPersona
        (bump persona profile.personaCounts) (bump_ne_nil _ _) with
      ⟨p, hp, hmem⟩
    exact ⟨p, maxCount (bump persona profile.personaCounts), hp,
      tiedLeaders_mem_maxCount _ _ hmem,
      fun q d hqd => le_maxCount _ q d hqd⟩
  · decide

/-- **C3**: when the synthesis collaborator fails, `Submit` performs no
preference or conversation mutation — every user's `totalQueries`,
`personaCounts`, `topicCounts` and conversation-window length are
identical before and after — and the session's event sequence is progress
events followed by a single `Failure` terminal event. -/
theorem c3_submit_failure_is_atomic :
    ∀ (st : ServerState) (userID : Option String)
        (question persona reason : String) (now : Nat),
      (Submit st userID question persona (SynthOutcome.failed reason)
        now).1 = st ∧
      (∀ uid : String,
        (getProfile (Submit st userID question persona
            (SynthOutcome.failed reason) now).1 uid).totalQueries =
          (getProfile st uid).totalQueries ∧
        (getProfile (Submit st userID question persona
            (SynthOutcome.failed reason) now).1 uid).personaCounts =
          (getProfile st uid).personaCounts ∧
        (getProfile (Submit st userID question persona
            (SynthOutcome.failed reason) now).1 uid).topicCounts =
          (getProfile st uid).topicCounts ∧
        (windowOf (Submit st userID question persona
            (SynthOutcome.failed reason) now).1.conversations uid).length =
          (windowOf st.conversations uid).length) ∧
      (Submit st userID question persona (SynthOutcome.failed reason)
          now).2 =
        [SessionEvent.progress "retrieving evidence",
         SessionEvent.progress "synthesizing",
         SessionEvent.failure reason] ∧
      ProgressThenOneTerminal SessionEvent.isTerminal
        (Submit st userID question persona (SynthOutcome.failed reason)
          now).2 := by
  intro st userID question persona reason now
  refine ⟨rfl, fun uid => ⟨rfl, rfl, rfl, rfl⟩, rfl, ?_⟩
  refine ⟨[SessionEvent.progress "retrieving evidence",
    SessionEvent.progress "synthesizing"], SessionEvent.failure reason,
    rfl, ?_, rfl⟩
  intro e he
  rcases List.mem_cons.mp he with rfl | he2
  · rfl
  · rcases List.mem_cons.mp he2 with rfl | he3
    · rfl
    · simp at he3

/-- **C6**: `RecentWindow(userID, n)` returns the last `min n total`
messages of the user's log as a suffix (hence in chronological order,
oldest first, never padded); an unknown `userID` yields the empty window
rather than an error; appending 8 messages then reading with `n = 5`
yields exactly the last five, and a user with 2 messages gets exactly
those two. -/
theorem c6_recent_window_last_min_n :
    (∀ (store : ConversationStore) (userID : String) (n : Nat),
      ∃ earlier : List Message,
        windowOf store userID = earlier ++ RecentWindow store userID n ∧
        (RecentWindow store userID n).length =
          min n (windowOf store userID).length) ∧
    (∀ (userID : String) (n : Nat),
      RecentWindow ([] : ConversationStore) userID n = []) ∧
    (RecentWindow ((List.range 8).foldl
        (fun st i => ConversationStore.Append st "u1"
          ⟨MessageRole.user, toString i, i⟩)
        ([] : ConversationStore)) "u1" 5 =
      [⟨MessageRole.user, "3", 3⟩, ⟨MessageRole.user, "4", 4⟩,
       ⟨MessageRole.user, "5", 5⟩, ⟨MessageRole.user, "6", 6⟩,
       ⟨MessageRole.user, "7", 7⟩]) ∧
    (RecentWindow ((List.range 2).foldl
        (fun st i => ConversationStore.Append st "u2"
          ⟨MessageRole.user, toString i, i⟩)
        ([] : ConversationStore)) "u2" 5 =
      [⟨MessageRole.user, "0", 0⟩, ⟨MessageRole.user, "1", 1⟩]) := by
  refine ⟨?_, ?_, by decide, by decide⟩
  · intro store userID n
    refine ⟨(windowOf store userID).take
        ((windowOf store userID).length - n), ?_, ?_⟩
    · exact (List.take_append_drop _ _).symm
    · rw [RecentWindow]
      simp only [List.length_drop]
      omega
  · intro userID n
    rw [RecentWindow]
    have hw : windowOf ([] : ConversationStore) userID = [] := rfl
    rw [hw]
    simp

/-- A JavaScript `||` chain is non-empty whenever its final fallback is. -/
theorem jsOrOpt_ne_nil (a : Option (List Char)) (b : List Char)
    (hb : b ≠ []) : jsOrOpt a b ≠ [] := by
  cases a with
  | none => exact hb
  | some s =>
    rw [jsOrOpt]
    by_cases hs : s = []
    · rw [if_pos hs]
      exact hb
    · rw [if_neg hs]
      exact hs

/-- **C9** (counterexample): the claim asserts `EnhancedAPIClient.query`
always returns a brief with non-empty consensus, contradiction and gap; a
backend payload that already carries a brief (here one with empty fields)
bypasses the legacy transform and is returned through the unchecked cast
unchanged, with all three fields empty. -/
theorem c9_query_passthrough_counterexample :
    ∃ b : Brief,
      (EnhancedAPIClient.query
        { answer := [], brief := some ⟨[], [], []⟩ }).brief = some b ∧
      b.consensus = [] ∧ b.contradiction = [] ∧ b.gap = [] := by
  refine ⟨⟨[], [], []⟩, ?_, rfl, rfl, rfl⟩
  rfl

/-- **C9** (amended): for every backend payload that carries a non-empty
answer and no brief, `EnhancedAPIClient.query` applies the legacy
transform: the returned brief exists with non-empty consensus,
contradiction and gap; exactly the three fixed follow-up questions are
supplied; and when no matching section is found the consensus falls back
to the answer's first 300 characters while contradiction and gap receive
the fixed default sentences. (Payloads already carrying a brief, or
lacking an answer, pass through unchanged.) -/
theorem c9_legacy_transform_structured_brief (data : BackendData)
    (ha : data.answer ≠ []) (hb : data.brief = none) :
    ∃ b : Brief,
      (EnhancedAPIClient.query data).brief = some b ∧
      b.consensus ≠ [] ∧ b.contradiction ≠ [] ∧ b.gap ≠ [] ∧
      (EnhancedAPIClient.query data).follow_up_questions =
        followUpDefaults ∧
      ((extractSection "consensus".toList data.answer = none ∧
        extractSection "findings".toList data.answer = none) →
        b.consensus = data.answer.take 300) ∧
      ((extractSection "contradiction".toList data.answer = none ∧
        extractSection "conflicting".toList data.answer = none) →
        b.contradiction = defaultContradictionText) ∧
      ((extractSection "gap".toList data.answer = none ∧
        extractSection "future research".toList data.answer = none) →
        b.gap = defaultGapText) := by
  have hq : EnhancedAPIClient.query data = transformLegacyResponse data := by
    rw [EnhancedAPIClient.query, if_pos ⟨ha, hb⟩]
  have htake : data.answer.take 300 ≠ [] := by
    cases h : data.answer with
    | nil => exact absurd h ha
    | cons c cs => simp
  refine ⟨Brief.mk
      (jsOrOpt (extractSection "consensus".toList data.answer)
        (jsOrOpt (extractSection "findings".toList data.answer)
          (data.answer.take 300)))
      (jsOrOpt (extractSection "contradiction".toList data.answer)
        (jsOrOpt (extractSection "conflicting".toList data.answer)
          defaultContradictionText))
      (jsOrOpt (extractSection "gap".toList data.answer)
        (jsOrOpt (extractSection "future research".toList data.answer)
          defaultGapText)),
    by rw [hq]; rfl, ?_, ?_, ?_, by rw [hq]; rfl, ?_, ?_, ?_⟩
  · exact jsOrOpt_ne_nil _ _ (jsOrOpt_ne_nil _ _ htake)
  · exact jsOrOpt_ne_nil _ _ (jsOrOpt_ne_nil _ _ (by decide))
  · exact jsOrOpt_ne_nil _ _ (jsOrOpt_ne_nil _ _ (by decide))
  · intro h
    simp only [h.1, h.2, jsOrOpt]
  · intro h
    simp only [h.1, h.2, jsOrOpt]
  · intro h
    simp only [h.1, h.2, jsOrOpt]

/-- Witness for **C9** at a concrete legacy payload whose answer contains
none of the section keywords. -/
theorem c9_legacy_transform_structured_brief_witness :
    ∃ b : Brief,
      (EnhancedAPIClient.query
        { answer := "Microgravity reduces bone density.".toList }).brief =
        some b ∧
      b.consensus ≠ [] ∧ b.contradiction ≠ [] ∧ b.gap ≠ [] ∧
      (EnhancedAPIClient.query
        { answer := "Microgravity reduces bone density.".toList
          }).follow_up_questions = followUpDefaults ∧
      ((extractSection "consensus".toList
          (BackendData.answer
            { answer := "Microgravity reduces bone density.".toList }) =
            none ∧
        extractSection "findings".toList
          (BackendData.answer
            { answer := "Microgravity reduces bone density.".toList }) =
            none) →
        b.consensus =
          (BackendData.answer
            { answer := "Microgravity reduces bone density.".toList
              }).take 300) ∧
      ((extractSection "contradiction".toList
          (BackendData.answer
            { answer := "Microgravity reduces bone density.".toList }) =
            none ∧
        extractSection "conflicting".toList
          (BackendData.answer
            { answer := "Microgravity reduces bone density.".toList }) =
            none) →
        b.contradiction = defaultContradictionText) ∧
      ((extractSection "gap".toList
          (BackendData.answer
            { answer := "Microgravity reduces bone density.".toList }) =
            none ∧
        extractSection "future research".toList
          (BackendData.answer
            { answer := "Microgravity reduces bone density.".toList }) =
            none) →
        b.gap = defaultGapText) :=
  c9_legacy_transform_structured_brief
    { answer := "Microgravity reduces bone density.".toList }
    (by decide) rfl
